import Mathlib

/-! Shallow embedding of `src/icinga-service-checks/twowaymail.py`, a
monitoring check that verifies two-way mail delivery between two mail
hosts.  Pure data (headers, parsing, the per-message classification of
the mailbox scan) is modelled directly.  The SMTP and IMAP sessions are
modelled as oracles recording which protocol operation succeeds, with
`Except Err` standing for an uncaught Python exception.  The ambient
values `time.time()` and `socket.gethostname()` are injected as explicit
parameters `now` and `hostname`. -/

set_option autoImplicit false

namespace Twowaymail

/-- One endpoint's configuration tuple `(smtp, imap, addr, user, pass, ssl)`
as assembled in `main`: `(args.smtpN, args.imapN, args.addrN, args.userN,
args.passN, not args.nosslN)`.  `conn[0]` is the SMTP (transport)
host[:port] string, `conn[1]` the IMAP (retrieval) host[:port] string. -/
structure Conn where
  smtp : String
  imap : String
  addr : String
  user : String
  pass : String
  ssl : Bool
deriving DecidableEq

/-- A mailbox message as `checkrecv` sees it: the two correlation headers
`X-TWM-Sender-Host` and `X-TWM-Unixtime`, each possibly absent.  The raw
unixtime header value stays a string; it is parsed during the scan, as in
the source (`float(msg['x-twm-unixtime'].strip())`). -/
structure Msg where
  senderHost : Option String
  unixtime : Option String
deriving DecidableEq

/-- Numeric value of a digit string, most significant digit first. -/
def digitsToNat (cs : List Char) : ℕ :=
  cs.foldl (fun n c => 10 * n + (c.toNat - 48)) 0

/-- Strip leading and trailing whitespace, as Python `str.strip()`. -/
def trimChars (cs : List Char) : List Char :=
  ((cs.dropWhile Char.isWhitespace).reverse.dropWhile Char.isWhitespace).reverse

/-- Plain decimal literal: digits with an optional single fractional part,
with at least one digit overall. -/
def parseUnsigned (cs : List Char) : Option ℚ :=
  let a := cs.takeWhile Char.isDigit
  let b := cs.dropWhile Char.isDigit
  match b with
  | [] => if a.isEmpty then none else some (digitsToNat a)
  | c :: fr =>
    if c == '.' && fr.all Char.isDigit && (!a.isEmpty || !fr.isEmpty) then
      some ((digitsToNat a : ℚ) + (digitsToNat fr : ℚ) / (10 : ℚ) ^ fr.length)
    else none

/-- Model of Python `float(value.strip())` on the header strings the scan
meets: optional sign followed by a plain decimal literal.  Every string
this parser accepts, Python `float` accepts with the same value; a `none`
result models `float` raising `ValueError`.  (Exponent and `inf`/`nan`
literals are outside the model; the probes themselves only carry plain
decimals printed from `time.time()`.) -/
def parseTime (s : String) : Option ℚ :=
  match trimChars s.data with
  | [] => none
  | c :: cs =>
    if c == '+' then parseUnsigned cs
    else if c == '-' then (parseUnsigned cs).map (fun q => -q)
    else parseUnsigned (c :: cs)

/-- How the scan loop of `checkrecv` resolves one message (lines 68-75):
`skip` is `continue` without touching the message, `stale` flags
`\Deleted` without recording success, `hit` records success and flags
`\Deleted`. -/
inductive Classify where
  | skip
  | stale
  | hit
deriving DecidableEq

/-- The per-message decision of the scan loop in `checkrecv` (lines 68-75).
`none` models the loop raising `ValueError`: the sender matches and the
unixtime header is present, but `float` cannot parse it. -/
def classifyMsg (senderhost : String) (now : ℚ) (m : Msg) : Option Classify :=
  match m.senderHost with
  | none => some Classify.skip
  | some s =>
    if s = senderhost then
      match m.unixtime with
      | none => some Classify.stale
      | some v =>
        match parseTime v with
        | none => none
        | some t =>
          if (1800 : ℚ) < now - t then some Classify.stale else some Classify.hit
    else some Classify.skip

/-- Whether the scan records success for this message (line 76). -/
def isHit (senderhost : String) (now : ℚ) (m : Msg) : Bool :=
  match classifyMsg senderhost now m with
  | some Classify.hit => true
  | _ => false

/-- Whether the scan flags this message `\Deleted` (lines 72 and 78). -/
def needsDelete (senderhost : String) (now : ℚ) (m : Msg) : Bool :=
  match classifyMsg senderhost now m with
  | some Classify.stale => true
  | some Classify.hit => true
  | _ => false

/-- Protocol operations performed by `checkrecv` and `send`, in source
order; used to record the operation trace of a run. -/
inductive Op where
  | imapConnect
  | imapStarttls
  | imapLogin
  | imapSelect
  | imapSearch
  | imapFetch
  | imapStore
  | imapExpunge
  | imapShutdown
  | smtpConnect
  | smtpStarttls
  | smtpEhlo
  | smtpLogin
  | smtpSendmail
deriving DecidableEq

/-- An uncaught Python exception: an IMAP4 error, an SMTP error, or the
`ValueError` raised by `float` on a malformed unixtime header. -/
inductive Err where
  | retrieval (op : Op)
  | transport (op : Op)
  | parseError
deriving DecidableEq

/-- Oracle for one IMAP4 session: which protocol operation succeeds, and
the mailbox content behind the ids returned by `search(None, 'ALL')`. -/
structure ImapSession where
  connectOk : Bool
  starttlsOk : Bool
  loginOk : Bool
  selectOk : Bool
  searchOk : Bool
  fetchOk : Bool
  storeOk : Bool
  expungeOk : Bool
  msgs : List Msg
deriving DecidableEq

/-- Oracle for one SMTP session. -/
structure SmtpSession where
  connectOk : Bool
  starttlsOk : Bool
  loginOk : Bool
  sendOk : Bool
deriving DecidableEq

/-- The `for num in data[0].split()` loop of `checkrecv` (lines 65-78):
fetch each message, classify it, flag `\Deleted` where decided, and
accumulate the `found` flag.  Returns `found` plus one disposal flag per
scanned message; `Except.error` models the loop aborting with an
exception (a failed fetch or store, or the `ValueError` from `float`). -/
def scanResult (fetchOk storeOk : Bool) (senderhost : String) (now : ℚ) :
    List Msg → Except Err (Bool × List Bool)
  | [] => Except.ok (false, [])
  | m :: ms =>
    if fetchOk = false then Except.error (Err.retrieval Op.imapFetch)
    else
      match classifyMsg senderhost now m with
      | none => Except.error Err.parseError
      | some Classify.skip =>
        (scanResult fetchOk storeOk senderhost now ms).map (fun p => (p.1, false :: p.2))
      | some Classify.stale =>
        if storeOk = false then Except.error (Err.retrieval Op.imapStore)
        else (scanResult fetchOk storeOk senderhost now ms).map (fun p => (p.1, true :: p.2))
      | some Classify.hit =>
        if storeOk = false then Except.error (Err.retrieval Op.imapStore)
        else (scanResult fetchOk storeOk senderhost now ms).map (fun p => (true, true :: p.2))

/-- Operations the scan loop successfully performs before returning or
aborting. -/
def scanTrace (fetchOk storeOk : Bool) (senderhost : String) (now : ℚ) :
    List Msg → List Op
  | [] => []
  | m :: ms =>
    if fetchOk = false then []
    else
      match classifyMsg senderhost now m with
      | none => [Op.imapFetch]
      | some Classify.skip => Op.imapFetch :: scanTrace fetchOk storeOk senderhost now ms
      | some Classify.stale =>
        if storeOk = false then [Op.imapFetch]
        else Op.imapFetch :: Op.imapStore :: scanTrace fetchOk storeOk senderhost now ms
      | some Classify.hit =>
        if storeOk = false then [Op.imapFetch]
        else Op.imapFetch :: Op.imapStore :: scanTrace fetchOk storeOk senderhost now ms

/-- `Twowaymail.checkrecv` (lines 52-79): connect, optional STARTTLS,
login, select, search, scan all messages, expunge, shutdown.  Returns the
`found` flag together with the per-message disposal flags (the source
returns only `found`; the flags record which messages `expunge` then
permanently removes). -/
def checkrecvResult (sess : ImapSession) (conn : Conn) (senderhost : String) (now : ℚ) :
    Except Err (Bool × List Bool) :=
  if sess.connectOk = false then Except.error (Err.retrieval Op.imapConnect)
  else if conn.ssl && !sess.starttlsOk then Except.error (Err.retrieval Op.imapStarttls)
  else if sess.loginOk = false then Except.error (Err.retrieval Op.imapLogin)
  else if sess.selectOk = false then Except.error (Err.retrieval Op.imapSelect)
  else if sess.searchOk = false then Except.error (Err.retrieval Op.imapSearch)
  else
    match scanResult sess.fetchOk sess.storeOk senderhost now sess.msgs with
    | Except.error e => Except.error e
    | Except.ok fd =>
      if sess.expungeOk = false then Except.error (Err.retrieval Op.imapExpunge)
      else Except.ok fd

/-- The IMAP operations performed before the scan loop. -/
def imapPre (ssl : Bool) : List Op :=
  Op.imapConnect :: (if ssl then [Op.imapStarttls] else [])

/-- Operations `checkrecv` successfully performs before returning or
aborting. -/
def checkrecvTrace (sess : ImapSession) (conn : Conn) (senderhost : String) (now : ℚ) :
    List Op :=
  if sess.connectOk = false then []
  else if conn.ssl && !sess.starttlsOk then [Op.imapConnect]
  else if sess.loginOk = false then imapPre conn.ssl
  else if sess.selectOk = false then imapPre conn.ssl ++ [Op.imapLogin]
  else if sess.searchOk = false then imapPre conn.ssl ++ [Op.imapLogin, Op.imapSelect]
  else
    match scanResult sess.fetchOk sess.storeOk senderhost now sess.msgs with
    | Except.error _ =>
      imapPre conn.ssl ++ [Op.imapLogin, Op.imapSelect, Op.imapSearch]
        ++ scanTrace sess.fetchOk sess.storeOk senderhost now sess.msgs
    | Except.ok _ =>
      if sess.expungeOk = false then
        imapPre conn.ssl ++ [Op.imapLogin, Op.imapSelect, Op.imapSearch]
          ++ scanTrace sess.fetchOk sess.storeOk senderhost now sess.msgs
      else
        imapPre conn.ssl ++ [Op.imapLogin, Op.imapSelect, Op.imapSearch]
          ++ scanTrace sess.fetchOk sess.storeOk senderhost now sess.msgs
          ++ [Op.imapExpunge, Op.imapShutdown]

/-- The probe mail built inside `send` (lines 35-50): `From` is
`conn[2]`, `To` is the argument, `X-TWM-Monitoring-Host` is the local
hostname, `X-TWM-Sender-Host` is `conn[0]` (the whole transport
host[:port] string), `X-TWM-Unixtime` is `time.time()`. -/
structure ProbeMsg where
  fromaddr : String
  toaddr : String
  monitorhost : String
  senderHost : String
  unixtime : ℚ
deriving DecidableEq

/-- The message `send` constructs (lines 35-50). -/
def buildProbe (hostname : String) (conn : Conn) (toAddr : String) (now : ℚ) : ProbeMsg :=
  { fromaddr := conn.addr
    toaddr := toAddr
    monitorhost := hostname
    senderHost := conn.smtp
    unixtime := now }

/-- `Twowaymail.send` (lines 24-50): connect, optional STARTTLS plus
EHLO, login, sendmail.  On success returns the probe message that went
out. -/
def sendResult (sess : SmtpSession) (hostname : String) (conn : Conn) (toAddr : String) (now : ℚ) :
    Except Err ProbeMsg :=
  if sess.connectOk = false then Except.error (Err.transport Op.smtpConnect)
  else if conn.ssl && !sess.starttlsOk then Except.error (Err.transport Op.smtpStarttls)
  else if sess.loginOk = false then Except.error (Err.transport Op.smtpLogin)
  else if sess.sendOk = false then Except.error (Err.transport Op.smtpSendmail)
  else Except.ok (buildProbe hostname conn toAddr now)

/-- The SMTP operations performed before login. -/
def smtpPre (ssl : Bool) : List Op :=
  Op.smtpConnect :: (if ssl then [Op.smtpStarttls, Op.smtpEhlo] else [])

/-- Operations `send` successfully performs before returning or
aborting. -/
def sendTrace (sess : SmtpSession) (conn : Conn) : List Op :=
  if sess.connectOk = false then []
  else if conn.ssl && !sess.starttlsOk then [Op.smtpConnect]
  else if sess.loginOk = false then smtpPre conn.ssl
  else if sess.sendOk = false then smtpPre conn.ssl ++ [Op.smtpLogin]
  else smtpPre conn.ssl ++ [Op.smtpLogin, Op.smtpSendmail]

/-- An IMAP session in which every protocol operation succeeds; with it,
`checkrecv` is a pure function of the mailbox content. -/
def allOk (msgs : List Msg) : ImapSession :=
  { connectOk := true
    starttlsOk := true
    loginOk := true
    selectOk := true
    searchOk := true
    fetchOk := true
    storeOk := true
    expungeOk := true
    msgs := msgs }

/-- `checkrecv` over a trouble-free session: the pure reconciliation of a
mailbox listing against an expected sender. -/
def checkrecv (conn : Conn) (senderhost : String) (now : ℚ) (msgs : List Msg) :
    Except Err (Bool × List Bool) :=
  checkrecvResult (allOk msgs) conn senderhost now

/-- The mailbox content left after `expunge` commits the disposal
flags. -/
def remaining (msgs : List Msg) (dels : List Bool) : List Msg :=
  ((msgs.zip dels).filter (fun p => !p.2)).map Prod.fst

/-- The ambient world of one run of `probe`: one IMAP session per
mailbox, one SMTP session per sender, the local hostname, and the clock. -/
structure Env where
  imap1 : ImapSession
  imap2 : ImapSession
  smtp1 : SmtpSession
  smtp2 : SmtpSession
  hostname : String
  now : ℚ
deriving DecidableEq

/-- What a completed run of `probe` produces: the two reconciliation
outcomes (`recv1`, `recv2`, each with its disposal flags) and the two
probe messages sent out. -/
structure RunResult where
  recv1 : Bool × List Bool
  recv2 : Bool × List Bool
  probe1 : ProbeMsg
  probe2 : ProbeMsg
deriving DecidableEq

/-- `Twowaymail.probe` (lines 81-91): reconcile `conn1`'s mailbox with
expected sender `conn2[0]`, reconcile `conn2`'s mailbox with expected
sender `conn1[1]`, then send a probe from `conn1` to `conn2[2]` and a
probe from `conn2` to `conn1[2]`.  An exception in any step propagates
and aborts the run. -/
def probeResult (env : Env) (c1 c2 : Conn) : Except Err RunResult :=
  match checkrecvResult env.imap1 c1 c2.smtp env.now with
  | Except.error e => Except.error e
  | Except.ok v1 =>
    match checkrecvResult env.imap2 c2 c1.imap env.now with
    | Except.error e => Except.error e
    | Except.ok v2 =>
      match sendResult env.smtp1 env.hostname c1 c2.addr env.now with
      | Except.error e => Except.error e
      | Except.ok p1 =>
        match sendResult env.smtp2 env.hostname c2 c1.addr env.now with
        | Except.error e => Except.error e
        | Except.ok p2 => Except.ok { recv1 := v1, recv2 := v2, probe1 := p1, probe2 := p2 }

/-- Tag each operation of a step's trace with the step number (1 and 2
are the two `checkrecv` calls, 3 and 4 the two `send` calls, in source
order). -/
def tagOps (n : ℕ) (t : List Op) : List (ℕ × Op) :=
  t.map (fun op => (n, op))

/-- The operation trace of one run of `probe`, truncated at the first
uncaught exception, in the order the source executes the four steps. -/
def probeTrace (env : Env) (c1 c2 : Conn) : List (ℕ × Op) :=
  match checkrecvResult env.imap1 c1 c2.smtp env.now with
  | Except.error _ => tagOps 1 (checkrecvTrace env.imap1 c1 c2.smtp env.now)
  | Except.ok _ =>
    match checkrecvResult env.imap2 c2 c1.imap env.now with
    | Except.error _ =>
      tagOps 1 (checkrecvTrace env.imap1 c1 c2.smtp env.now)
        ++ tagOps 2 (checkrecvTrace env.imap2 c2 c1.imap env.now)
    | Except.ok _ =>
      match sendResult env.smtp1 env.hostname c1 c2.addr env.now with
      | Except.error _ =>
        tagOps 1 (checkrecvTrace env.imap1 c1 c2.smtp env.now)
          ++ tagOps 2 (checkrecvTrace env.imap2 c2 c1.imap env.now)
          ++ tagOps 3 (sendTrace env.smtp1 c1)
      | Except.ok _ =>
        tagOps 1 (checkrecvTrace env.imap1 c1 c2.smtp env.now)
          ++ tagOps 2 (checkrecvTrace env.imap2 c2 c1.imap env.now)
          ++ tagOps 3 (sendTrace env.smtp1 c1)
          ++ tagOps 4 (sendTrace env.smtp2 c2)

/-- Whether an operation belongs to the retrieval (IMAP) side. -/
def isImapOp : Op → Bool
  | Op.imapConnect => true
  | Op.imapStarttls => true
  | Op.imapLogin => true
  | Op.imapSelect => true
  | Op.imapSearch => true
  | Op.imapFetch => true
  | Op.imapStore => true
  | Op.imapExpunge => true
  | Op.imapShutdown => true
  | Op.smtpConnect => false
  | Op.smtpStarttls => false
  | Op.smtpEhlo => false
  | Op.smtpLogin => false
  | Op.smtpSendmail => false

/-- Python `value.split(sep)` for a single-character separator: split on
every occurrence, keeping empty fields. -/
def pysplit (sep : Char) : List Char → List (List Char)
  | [] => [[]]
  | c :: cs =>
    if c = sep then [] :: pysplit sep cs
    else
      match pysplit sep cs with
      | f :: rest => (c :: f) :: rest
      | [] => [[c]]

/-- A connection port: either the text of `conn[i].split(":")[1]`, or the
numeric default substituted on `IndexError` (587 for SMTP, 143 for
IMAP). -/
inductive PortSpec where
  | fromString (p : String)
  | dflt (n : ℕ)
deriving DecidableEq

/-- `conn[i].split(":")[0]`, the host part (lines 25 and 53). -/
def hostPart (s : String) : String :=
  String.mk ((pysplit ':' s.data).headD [])

/-- `conn[i].split(":")[1]` with the `IndexError` fallback to a default
port (lines 26-29 and 54-57). -/
def portPart (s : String) (d : ℕ) : PortSpec :=
  match pysplit ':' s.data with
  | _ :: p :: _ => PortSpec.fromString (String.mk p)
  | _ => PortSpec.dflt d

/-- The host `send` connects to (line 25). -/
def smtpHost (conn : Conn) : String := hostPart conn.smtp

/-- The port `send` connects to (lines 26-29, default 587). -/
def smtpPort (conn : Conn) : PortSpec := portPart conn.smtp 587

/-- The host `checkrecv` connects to (line 53). -/
def imapHost (conn : Conn) : String := hostPart conn.imap

/-- The port `checkrecv` connects to (lines 54-57, default 143). -/
def imapPort (conn : Conn) : PortSpec := portPart conn.imap 143

/-- Port selection as the specification words it: the text after the
first colon, when a colon is present.  Stated only for comparison with
`portPart`, which takes the text between the first and the second
colon. -/
def portAfterFirstColon (s : String) (d : ℕ) : PortSpec :=
  match s.data.dropWhile (fun c => c != ':') with
  | [] => PortSpec.dflt d
  | _ :: rest => PortSpec.fromString (String.mk rest)

/-- The flags an `Except.ok` outcome of `checkrecv` certifies about its
IMAP session: every unconditionally executed operation succeeded, `fetch`
succeeded whenever the listing was nonempty, and `store` succeeded
whenever some message was flagged for disposal.  (Contrapositive: any
such operation failing makes the outcome an error, never a boolean.) -/
def imapSessionComplete (sess : ImapSession) (ssl : Bool) (senderhost : String) (now : ℚ) :
    Prop :=
  sess.connectOk = true ∧ (ssl = true → sess.starttlsOk = true) ∧ sess.loginOk = true ∧
  sess.selectOk = true ∧ sess.searchOk = true ∧ sess.expungeOk = true ∧
  (sess.msgs = [] ∨ sess.fetchOk = true) ∧
  (sess.msgs.any (needsDelete senderhost now) = true → sess.storeOk = true)

/-- The flags an `Except.ok` outcome of `send` certifies about its SMTP
session. -/
def smtpSessionComplete (sess : SmtpSession) (ssl : Bool) : Prop :=
  sess.connectOk = true ∧ (ssl = true → sess.starttlsOk = true) ∧ sess.loginOk = true ∧
  sess.sendOk = true

/-! Concrete fixtures used by the closed evaluations below. -/

/-- A hostname for the monitoring process. -/
def hostW : String := "monitor.example"

/-- An expected sender identifier. -/
def hostMatch : String := "mail-a.example"

/-- A sender identifier different from `hostMatch`. -/
def otherHost : String := "mail-x.example"

/-- A well-formed unixtime header value. -/
def tsStr : String := "100"

/-- A unixtime header value Python `float` rejects. -/
def badTime : String := "not-a-number"

/-- An endpoint configuration. -/
def connW : Conn :=
  { smtp := "smtp-w.example", imap := "imap-w.example", addr := "probe@w.example",
    user := "user-w", pass := "secret-w", ssl := false }

/-- A fresh matching probe artifact (relative to `hostMatch` and small
`now` values). -/
def msgGood : Msg := { senderHost := some hostMatch, unixtime := some tsStr }

/-- Matching sender, malformed unixtime header. -/
def msgBadTime : Msg := { senderHost := some hostMatch, unixtime := some badTime }

/-- No sender-host header at all. -/
def msgNoSender : Msg := { senderHost := none, unixtime := some tsStr }

/-- Matching sender, missing unixtime header. -/
def msgNoTime : Msg := { senderHost := some hostMatch, unixtime := none }

/-- Probe artifact of an unrelated sender. -/
def msgOther : Msg := { senderHost := some otherHost, unixtime := some tsStr }

/-- A trouble-free SMTP session. -/
def smtpOkW : SmtpSession :=
  { connectOk := true, starttlsOk := true, loginOk := true, sendOk := true }

/-- Endpoint A of a concrete pair: distinct SMTP and IMAP hosts. -/
def cA : Conn :=
  { smtp := "smtp-a.example", imap := "imap-a.example", addr := "probe@a.example",
    user := "user-a", pass := "secret-a", ssl := false }

/-- Endpoint B of a concrete pair. -/
def cB : Conn :=
  { smtp := "smtp-b.example", imap := "imap-b.example", addr := "probe@b.example",
    user := "user-b", pass := "secret-b", ssl := false }

/-- A trouble-free environment with empty mailboxes. -/
def envW : Env :=
  { imap1 := allOk [], imap2 := allOk [], smtp1 := smtpOkW, smtp2 := smtpOkW,
    hostname := hostW, now := 0 }

/-- What `probe` returns in `envW`. -/
def rW : RunResult :=
  { recv1 := (false, []), recv2 := (false, []),
    probe1 := buildProbe hostW cA cB.addr 0, probe2 := buildProbe hostW cB cA.addr 0 }

/-- The probe artifact endpoint A's `send` deposits in B's mailbox: its
sender-host header carries `cA.smtp` (`fromhost=conn[0]`, line 39). -/
def msgFromA : Msg := { senderHost := some cA.smtp, unixtime := some tsStr }

/-- The probe artifact endpoint B's `send` deposits in A's mailbox. -/
def msgFromB : Msg := { senderHost := some cB.smtp, unixtime := some tsStr }

/-- A trouble-free environment in which each mailbox holds exactly the
probe the opposite endpoint sent on a previous run, both still fresh at
`now = 200`. -/
def envBug : Env :=
  { imap1 := allOk [msgFromB], imap2 := allOk [msgFromA], smtp1 := smtpOkW,
    smtp2 := smtpOkW, hostname := hostW, now := 200 }

/-- An endpoint whose SMTP string carries an explicit port. -/
def cPort : Conn :=
  { smtp := "smtp-w.example:2525", imap := "imap-w.example", addr := "probe@w.example",
    user := "user-w", pass := "secret-w", ssl := false }

/-- A host string with two colons, where "the text after the first
colon" and "the second colon-separated field" differ. -/
def twoColons : String := "h:1:2"

/-- The characters of `cPort.smtp` before its colon. -/
def cPortHost : List Char :=
  ['s', 'm', 't', 'p', '-', 'w', '.', 'e', 'x', 'a', 'm', 'p', 'l', 'e']

/-- The characters of `cPort.smtp` after its colon. -/
def cPortRest : List Char := ['2', '5', '2', '5']

/-! Helper lemmas about the per-message classification. -/

theorem classifyMsg_noSender (sh : String) (now : ℚ) (m : Msg)
    (h : m.senderHost = none) : classifyMsg sh now m = some Classify.skip := by
  simp [classifyMsg, h]

theorem classifyMsg_mismatch (sh : String) (now : ℚ) (m : Msg) (s : String)
    (hs : m.senderHost = some s) (hne : s ≠ sh) :
    classifyMsg sh now m = some Classify.skip := by
  simp [classifyMsg, hs, hne]

theorem classifyMsg_noTime (sh : String) (now : ℚ) (m : Msg)
    (hs : m.senderHost = some sh) (hu : m.unixtime = none) :
    classifyMsg sh now m = some Classify.stale := by
  simp [classifyMsg, hs, hu]

theorem classifyMsg_parsed (sh : String) (now : ℚ) (m : Msg) (v : String) (t : ℚ)
    (hs : m.senderHost = some sh) (hu : m.unixtime = some v)
    (hp : parseTime v = some t) :
    classifyMsg sh now m =
      if (1800 : ℚ) < now - t then some Classify.stale else some Classify.hit := by
  simp [classifyMsg, hs, hu, hp]

/-- The scan over a trouble-free session, characterised per message: it
aborts with the `float` `ValueError` exactly when some message matches
the sender but carries an unparseable unixtime header, and otherwise
reports whether any message was a fresh match together with one disposal
flag per message. -/
theorem scanResult_allOk (sh : String) (now : ℚ) (msgs : List Msg) :
    scanResult true true sh now msgs =
      if msgs.all (fun m => (classifyMsg sh now m).isSome) then
        Except.ok (msgs.any (isHit sh now), msgs.map (needsDelete sh now))
      else Except.error Err.parseError := by
  induction msgs with
  | nil => simp [scanResult]
  | cons m ms ih =>
    cases hc : classifyMsg sh now m with
    | none => simp [scanResult, hc]
    | some c =>
      cases c with
      | skip =>
        have h1 : isHit sh now m = false := by simp [isHit, hc]
        have h2 : needsDelete sh now m = false := by simp [needsDelete, hc]
        cases hall : ms.all (fun m => (classifyMsg sh now m).isSome) with
        | false => simp [scanResult, hc, ih, hall, Except.map]
        | true => simp [scanResult, hc, ih, hall, h1, h2, Except.map]
      | stale =>
        have h1 : isHit sh now m = false := by simp [isHit, hc]
        have h2 : needsDelete sh now m = true := by simp [needsDelete, hc]
        cases hall : ms.all (fun m => (classifyMsg sh now m).isSome) with
        | false => simp [scanResult, hc, ih, hall, Except.map]
        | true => simp [scanResult, hc, ih, hall, h1, h2, Except.map]
      | hit =>
        have h1 : isHit sh now m = true := by simp [isHit, hc]
        have h2 : needsDelete sh now m = true := by simp [needsDelete, hc]
        cases hall : ms.all (fun m => (classifyMsg sh now m).isSome) with
        | false => simp [scanResult, hc, ih, hall, Except.map]
        | true => simp [scanResult, hc, ih, hall, h1, h2, Except.map]

/-- `checkrecv` over a trouble-free session, characterised per message. -/
theorem checkrecv_eq (conn : Conn) (sh : String) (now : ℚ) (msgs : List Msg) :
    checkrecv conn sh now msgs =
      if msgs.all (fun m => (classifyMsg sh now m).isSome) then
        Except.ok (msgs.any (isHit sh now), msgs.map (needsDelete sh now))
      else Except.error Err.parseError := by
  cases hall : msgs.all (fun m => (classifyMsg sh now m).isSome) with
  | false =>
    simp [checkrecv, checkrecvResult, allOk, scanResult_allOk, hall]
  | true =>
    simp [checkrecv, checkrecvResult, allOk, scanResult_allOk, hall]

theorem getElem_mid {α : Type} (l1 : List α) (x : α) (l2 : List α) :
    (l1 ++ x :: l2)[l1.length]? = some x := by
  induction l1 with
  | nil => simp
  | cons a l ih => simpa using ih

theorem getElem_map_mid (g : Msg → Bool) (pre post : List Msg) (m : Msg) :
    ((pre ++ m :: post).map g)[pre.length]? = some (g m) := by
  rw [List.map_append, List.map_cons]
  have h := getElem_mid (pre.map g) (g m) (post.map g)
  simpa using h

theorem remaining_map_self (g : Msg → Bool) (l : List Msg) :
    remaining l (l.map g) = l.filter (fun m => !(g m)) := by
  induction l with
  | nil => rfl
  | cons m ms ih =>
    cases hg : g m with
    | false => simp [remaining, List.filter, hg] at ih ⊢; exact ih
    | true => simp [remaining, List.filter, hg] at ih ⊢; exact ih

/-- Effect of one message of known classification on a trouble-free
scan of `pre ++ [m] ++ post`: its disposal flag is `needsDelete`; a
non-`hit` message leaves the success outcome exactly what it would be
without it; a `hit` forces success; an untouched message survives the
expunge. -/
theorem checkrecv_insert (conn : Conn) (sh : String) (now : ℚ)
    (pre post : List Msg) (m : Msg) (c : Classify)
    (hc : classifyMsg sh now m = some c) :
    (∀ f ds, checkrecv conn sh now (pre ++ m :: post) = Except.ok (f, ds) →
        ds[pre.length]? = some (needsDelete sh now m)) ∧
    (isHit sh now m = false →
      (checkrecv conn sh now (pre ++ m :: post)).map Prod.fst =
        (checkrecv conn sh now (pre ++ post)).map Prod.fst) ∧
    (isHit sh now m = true →
      ∀ f ds, checkrecv conn sh now (pre ++ m :: post) = Except.ok (f, ds) → f = true) ∧
    (needsDelete sh now m = false →
      ∀ f ds, checkrecv conn sh now (pre ++ m :: post) = Except.ok (f, ds) →
        m ∈ remaining (pre ++ m :: post) ds) := by
  have hSome : (classifyMsg sh now m).isSome = true := by simp [hc]
  refine ⟨?_, ?_, ?_, ?_⟩
  · intro f ds h
    rw [checkrecv_eq] at h
    by_cases hall : ((pre ++ m :: post).all fun m => (classifyMsg sh now m).isSome) = true
    · rw [if_pos hall] at h
      have hds : ds = (pre ++ m :: post).map (needsDelete sh now) :=
        ((Prod.mk.injEq _ _ _ _).mp (Except.ok.inj h)).2.symm
      rw [hds]
      exact getElem_map_mid _ _ _ _
    · rw [if_neg hall] at h
      exact absurd h (by simp)
  · intro hhit
    rw [checkrecv_eq, checkrecv_eq]
    have hall : ((pre ++ m :: post).all fun x => (classifyMsg sh now x).isSome) =
        ((pre ++ post).all fun x => (classifyMsg sh now x).isSome) := by
      simp [List.all_append, hSome]
    have hany : ((pre ++ m :: post).any (isHit sh now)) =
        ((pre ++ post).any (isHit sh now)) := by
      simp [List.any_append, hhit]
    rw [hall]
    by_cases h2 : ((pre ++ post).all fun x => (classifyMsg sh now x).isSome) = true
    · rw [if_pos h2, if_pos h2]
      simp [Except.map, hany]
    · rw [if_neg h2, if_neg h2]
  · intro hhit f ds h
    rw [checkrecv_eq] at h
    by_cases hall : ((pre ++ m :: post).all fun x => (classifyMsg sh now x).isSome) = true
    · rw [if_pos hall] at h
      have hf : f = (pre ++ m :: post).any (isHit sh now) :=
        ((Prod.mk.injEq _ _ _ _).mp (Except.ok.inj h)).1.symm
      rw [hf]
      simp [List.any_append, hhit]
    · rw [if_neg hall] at h
      exact absurd h (by simp)
  · intro hnd f ds h
    rw [checkrecv_eq] at h
    by_cases hall : ((pre ++ m :: post).all fun x => (classifyMsg sh now x).isSome) = true
    · rw [if_pos hall] at h
      have hds : ds = (pre ++ m :: post).map (needsDelete sh now) :=
        ((Prod.mk.injEq _ _ _ _).mp (Except.ok.inj h)).2.symm
      rw [hds, remaining_map_self]
      refine List.mem_filter.mpr ⟨?_, ?_⟩
      · exact List.mem_append.mpr (Or.inr (List.mem_cons_self _ _))
      · simp [hnd]
    · rw [if_neg hall] at h
      exact absurd h (by simp)

/-- Claim C2, counterexample: a mailbox message whose sender-host header
matches the expected sender but whose unixtime header is not parseable
as a number makes the scan raise (the `ValueError` of `float` at line
71), so the reconciler is not total over arbitrary mailbox contents. -/
theorem c2_counterexample :
    checkrecv connW hostMatch 0 [msgBadTime] = Except.error Err.parseError := by
  with_unfolding_all rfl

/-- Claim C2 (amended): the scan never raises and resolves every message
by a classification decision, provided every message whose sender-host
header equals the expected sender carries either no unixtime header or a
parseable one; a matching message with a present but unparseable
unixtime header instead raises a parse error. -/
theorem c2_reconciler_total (conn : Conn) (sh : String) (now : ℚ) (msgs : List Msg)
    (h : ∀ m ∈ msgs, m.senderHost = some sh →
        m.unixtime.all (fun v => (parseTime v).isSome) = true) :
    checkrecv conn sh now msgs =
      Except.ok (msgs.any (isHit sh now), msgs.map (needsDelete sh now)) ∧
    (msgs.map (needsDelete sh now)).length = msgs.length := by
  have hall : (msgs.all fun m => (classifyMsg sh now m).isSome) = true := by
    rw [List.all_eq_true]
    intro m hm
    cases hs : m.senderHost with
    | none => simp [classifyMsg, hs]
    | some s =>
      by_cases hsh : s = sh
      · subst hsh
        cases hu : m.unixtime with
        | none => simp [classifyMsg, hs, hu]
        | some v =>
          have hv := h m hm hs
          rw [hu] at hv
          simp only [Option.all] at hv
          cases hp : parseTime v with
          | none => rw [hp] at hv; exact absurd hv (by simp)
          | some t =>
            by_cases hlt : (1800 : ℚ) < now - t <;> simp [classifyMsg, hs, hu, hp, hlt]
      · simp [classifyMsg, hs, hsh]
  rw [checkrecv_eq, if_pos hall]
  exact ⟨rfl, List.length_map _ _⟩

/-- Claim C2, witness instance of the amended theorem. -/
theorem c2_reconciler_total_witness :
    checkrecv connW hostMatch 0 [msgGood, msgNoSender, msgOther] =
      Except.ok (([msgGood, msgNoSender, msgOther] : List Msg).any (isHit hostMatch 0),
        ([msgGood, msgNoSender, msgOther] : List Msg).map (needsDelete hostMatch 0)) ∧
    (([msgGood, msgNoSender, msgOther] : List Msg).map (needsDelete hostMatch 0)).length =
      ([msgGood, msgNoSender, msgOther] : List Msg).length :=
  c2_reconciler_total connW hostMatch 0 [msgGood, msgNoSender, msgOther] (by decide)

/-- Claim C3, counterexample: a message carrying the expected sender-host
header but no unixtime header lacks a correlation header, yet the scan
marks it for deletion (line 72) and the expunge removes it, instead of
leaving it untouched. -/
theorem c3_counterexample :
    checkrecv connW hostMatch 0 [msgNoTime] = Except.ok (false, [true]) ∧
    remaining [msgNoTime] [true] = [] := by
  constructor
  · with_unfolding_all rfl
  · with_unfolding_all rfl

/-- Claim C3 (amended): a message lacking the sender-host header is left
untouched (not flagged, survives the expunge) and never affects the
success result; but a message whose sender-host header matches the
expected sender while its unixtime header is missing is marked for
deletion (treated as stale), still without affecting the success
result. -/
theorem c3_missing_headers (conn : Conn) (sh : String) (now : ℚ)
    (pre post : List Msg) (m : Msg) :
    (m.senderHost = none →
      (∀ f ds, checkrecv conn sh now (pre ++ m :: post) = Except.ok (f, ds) →
          ds[pre.length]? = some false ∧ m ∈ remaining (pre ++ m :: post) ds) ∧
      (checkrecv conn sh now (pre ++ m :: post)).map Prod.fst =
        (checkrecv conn sh now (pre ++ post)).map Prod.fst) ∧
    (m.senderHost = some sh → m.unixtime = none →
      (∀ f ds, checkrecv conn sh now (pre ++ m :: post) = Except.ok (f, ds) →
          ds[pre.length]? = some true) ∧
      (checkrecv conn sh now (pre ++ m :: post)).map Prod.fst =
        (checkrecv conn sh now (pre ++ post)).map Prod.fst) := by
  constructor
  · intro hs
    have hc := classifyMsg_noSender sh now m hs
    have hnd : needsDelete sh now m = false := by simp [needsDelete, hc]
    have hih : isHit sh now m = false := by simp [isHit, hc]
    obtain ⟨h1, h2, _, h4⟩ := checkrecv_insert conn sh now pre post m _ hc
    refine ⟨fun f ds h => ⟨?_, h4 hnd f ds h⟩, h2 hih⟩
    have h5 := h1 f ds h
    rwa [hnd] at h5
  · intro hs hu
    have hc := classifyMsg_noTime sh now m hs hu
    have hnd : needsDelete sh now m = true := by simp [needsDelete, hc]
    have hih : isHit sh now m = false := by simp [isHit, hc]
    obtain ⟨h1, h2, _, _⟩ := checkrecv_insert conn sh now pre post m _ hc
    refine ⟨fun f ds h => ?_, h2 hih⟩
    have h5 := h1 f ds h
    rwa [hnd] at h5

/-- Claim C3, witness instance of the amended theorem. -/
theorem c3_missing_headers_witness :
    (checkrecv connW hostMatch 0 ([] ++ msgNoSender :: [msgGood])).map Prod.fst =
      (checkrecv connW hostMatch 0 ([] ++ [msgGood])).map Prod.fst :=
  ((c3_missing_headers connW hostMatch 0 [] [msgGood] msgNoSender).1 rfl).2

/-- Claim C4: a message whose sender-host header equals the expected
sender and whose unixtime header parses is always marked for deletion,
and it contributes success exactly when `now - timestamp <= 1800`: a
fresh match forces the success result to `true`, a stale match leaves
the success result exactly what it would be without the message. -/
theorem c4_match_deletion_freshness (conn : Conn) (sh : String) (now : ℚ)
    (pre post : List Msg) (m : Msg) (v : String) (t : ℚ)
    (hs : m.senderHost = some sh) (hu : m.unixtime = some v)
    (hp : parseTime v = some t) :
    (∀ f ds, checkrecv conn sh now (pre ++ m :: post) = Except.ok (f, ds) →
        ds[pre.length]? = some true) ∧
    (now - t ≤ 1800 →
      ∀ f ds, checkrecv conn sh now (pre ++ m :: post) = Except.ok (f, ds) → f = true) ∧
    ((1800 : ℚ) < now - t →
      (checkrecv conn sh now (pre ++ m :: post)).map Prod.fst =
        (checkrecv conn sh now (pre ++ post)).map Prod.fst) := by
  have hcls := classifyMsg_parsed sh now m v t hs hu hp
  by_cases hst : (1800 : ℚ) < now - t
  · rw [if_pos hst] at hcls
    have hnd : needsDelete sh now m = true := by simp [needsDelete, hcls]
    have hih : isHit sh now m = false := by simp [isHit, hcls]
    obtain ⟨h1, h2, _, _⟩ := checkrecv_insert conn sh now pre post m _ hcls
    refine ⟨fun f ds h => ?_, fun hfr => absurd hst (not_lt.mpr hfr), fun _ => h2 hih⟩
    have h5 := h1 f ds h
    rwa [hnd] at h5
  · rw [if_neg hst] at hcls
    have hnd : needsDelete sh now m = true := by simp [needsDelete, hcls]
    have hih : isHit sh now m = true := by simp [isHit, hcls]
    obtain ⟨h1, _, h3, _⟩ := checkrecv_insert conn sh now pre post m _ hcls
    refine ⟨fun f ds h => ?_, fun _ => h3 hih, fun hlt => absurd hlt hst⟩
    have h5 := h1 f ds h
    rwa [hnd] at h5

/-- Claim C4, witness instance (stale match at `now = 2000`). -/
theorem c4_match_deletion_freshness_witness :
    (checkrecv connW hostMatch 2000 ([] ++ msgGood :: [])).map Prod.fst =
      (checkrecv connW hostMatch 2000 ([] ++ [])).map Prod.fst :=
  (c4_match_deletion_freshness connW hostMatch 2000 [] [] msgGood tsStr 100 rfl rfl
    (by with_unfolding_all decide)).2.2 (by with_unfolding_all decide)

/-- Claim C5: a message whose sender-host header is present but does not
equal the expected sender is neither flagged for deletion nor allowed to
affect the success result, and it survives the expunge. -/
theorem c5_mismatch_frame (conn : Conn) (sh : String) (now : ℚ)
    (pre post : List Msg) (m : Msg) (s : String)
    (hs : m.senderHost = some s) (hne : s ≠ sh) :
    (∀ f ds, checkrecv conn sh now (pre ++ m :: post) = Except.ok (f, ds) →
        ds[pre.length]? = some false ∧ m ∈ remaining (pre ++ m :: post) ds) ∧
    (checkrecv conn sh now (pre ++ m :: post)).map Prod.fst =
      (checkrecv conn sh now (pre ++ post)).map Prod.fst := by
  have hc := classifyMsg_mismatch sh now m s hs hne
  have hnd : needsDelete sh now m = false := by simp [needsDelete, hc]
  have hih : isHit sh now m = false := by simp [isHit, hc]
  obtain ⟨h1, h2, _, h4⟩ := checkrecv_insert conn sh now pre post m _ hc
  refine ⟨fun f ds h => ⟨?_, h4 hnd f ds h⟩, h2 hih⟩
  have h5 := h1 f ds h
  rwa [hnd] at h5

/-- Claim C5, witness instance. -/
theorem c5_mismatch_frame_witness :
    (checkrecv connW hostMatch 0 ([] ++ msgOther :: [])).map Prod.fst =
      (checkrecv connW hostMatch 0 ([] ++ [])).map Prod.fst :=
  (c5_mismatch_frame connW hostMatch 0 [] [] msgOther otherHost rfl (by decide)).2

/-- Claim C6: when at least two messages all match the expected sender
and are all fresh, the result is the single boolean `true` (not a count,
not toggled off by later messages), every message is flagged for
deletion, and the scan covers the full listing (one disposal flag per
message). -/
theorem c6_multiple_matches (conn : Conn) (sh : String) (now : ℚ) (msgs : List Msg)
    (hlen : 2 ≤ msgs.length)
    (hall : ∀ m ∈ msgs, m.senderHost = some sh ∧
        (m.unixtime.any (fun v =>
          (parseTime v).any (fun t => decide (now - t ≤ 1800)))) = true) :
    checkrecv conn sh now msgs = Except.ok (true, List.replicate msgs.length true) := by
  have hhit : ∀ m ∈ msgs, classifyMsg sh now m = some Classify.hit := by
    intro m hm
    obtain ⟨hs, hfresh⟩ := hall m hm
    cases hu : m.unixtime with
    | none => rw [hu] at hfresh; exact absurd hfresh (by simp [Option.any])
    | some v =>
      rw [hu] at hfresh
      simp only [Option.any] at hfresh
      cases hp : parseTime v with
      | none => rw [hp] at hfresh; exact absurd hfresh (by simp [Option.any])
      | some t =>
        rw [hp] at hfresh
        simp only [Option.any, decide_eq_true_eq] at hfresh
        rw [classifyMsg_parsed sh now m v t hs hu hp, if_neg (not_lt.mpr hfresh)]
  have hcond : (msgs.all fun m => (classifyMsg sh now m).isSome) = true :=
    List.all_eq_true.mpr (fun m hm => by simp [hhit m hm])
  have hany : msgs.any (isHit sh now) = true := by
    cases msgs with
    | nil => simp at hlen
    | cons m ms =>
      have hh : isHit sh now m = true := by simp [isHit, hhit m (List.mem_cons_self m ms)]
      simp [List.any_cons, hh]
  have hmap : msgs.map (needsDelete sh now) = List.replicate msgs.length true := by
    refine List.eq_replicate_iff.mpr ⟨by simp, ?_⟩
    intro b hb
    obtain ⟨m, hm, rfl⟩ := List.mem_map.mp hb
    simp [needsDelete, hhit m hm]
  rw [checkrecv_eq, if_pos hcond, hany, hmap]

/-- Claim C6, witness instance: two fresh matching messages. -/
theorem c6_multiple_matches_witness :
    checkrecv connW hostMatch 200 [msgGood, msgGood] =
      Except.ok (true, List.replicate ([msgGood, msgGood] : List Msg).length true) :=
  c6_multiple_matches connW hostMatch 200 [msgGood, msgGood] (by decide)
    (by with_unfolding_all decide)

/-! Inversion lemmas for the session-level model. -/

theorem mem_of_getElem_opt {α : Type} {l : List α} {i : ℕ} {x : α}
    (h : l[i]? = some x) : x ∈ l := by
  obtain ⟨hlt, he⟩ := List.getElem?_eq_some.mp h
  exact he ▸ List.getElem_mem hlt

theorem scanResult_ok_inv (fOk sOk : Bool) (sh : String) (now : ℚ) (msgs : List Msg)
    (b : Bool) (ds : List Bool)
    (h : scanResult fOk sOk sh now msgs = Except.ok (b, ds)) :
    b = msgs.any (isHit sh now) ∧ ds = msgs.map (needsDelete sh now) ∧
    (msgs = [] ∨ fOk = true) ∧
    (msgs.any (needsDelete sh now) = true → sOk = true) := by
  induction msgs generalizing b ds with
  | nil =>
    simp only [scanResult, Except.ok.injEq, Prod.mk.injEq] at h
    obtain ⟨hb, hds⟩ := h
    simp [hb, hds]
  | cons m ms ih =>
    by_cases hf : fOk = false
    · simp [scanResult, hf] at h
    · have hfo : fOk = true := by revert hf; cases fOk <;> simp
      cases hc : classifyMsg sh now m with
      | none => simp [scanResult, if_neg hf, hc] at h
      | some c =>
        cases c with
        | skip =>
          have hH : isHit sh now m = false := by simp [isHit, hc]
          have hD : needsDelete sh now m = false := by simp [needsDelete, hc]
          cases hrec : scanResult fOk sOk sh now ms with
          | error e => simp [scanResult, if_neg hf, hc, hrec, Except.map] at h
          | ok p =>
            simp only [scanResult, if_neg hf, hc, hrec, Except.map, Except.ok.injEq,
              Prod.mk.injEq] at h
            obtain ⟨hb, hds⟩ := h
            obtain ⟨ihb, ihds, _, ihs⟩ := ih p.1 p.2 (by rw [hrec])
            refine ⟨?_, ?_, Or.inr hfo, ?_⟩
            · rw [← hb, ihb]; simp [List.any_cons, hH]
            · rw [← hds, ihds]; simp [List.map_cons, hD]
            · intro hany; exact ihs (by simpa [List.any_cons, hD] using hany)
        | stale =>
          have hH : isHit sh now m = false := by simp [isHit, hc]
          have hD : needsDelete sh now m = true := by simp [needsDelete, hc]
          by_cases hs : sOk = false
          · simp [scanResult, if_neg hf, hc, hs] at h
          · have hso : sOk = true := by revert hs; cases sOk <;> simp
            cases hrec : scanResult fOk sOk sh now ms with
            | error e => simp [scanResult, if_neg hf, hc, if_neg hs, hrec, Except.map] at h
            | ok p =>
              simp only [scanResult, if_neg hf, hc, if_neg hs, hrec, Except.map,
                Except.ok.injEq, Prod.mk.injEq] at h
              obtain ⟨hb, hds⟩ := h
              obtain ⟨ihb, ihds, _, _⟩ := ih p.1 p.2 (by rw [hrec])
              refine ⟨?_, ?_, Or.inr hfo, fun _ => hso⟩
              · rw [← hb, ihb]; simp [List.any_cons, hH]
              · rw [← hds, ihds]; simp [List.map_cons, hD]
        | hit =>
          have hH : isHit sh now m = true := by simp [isHit, hc]
          have hD : needsDelete sh now m = true := by simp [needsDelete, hc]
          by_cases hs : sOk = false
          · simp [scanResult, if_neg hf, hc, hs] at h
          · have hso : sOk = true := by revert hs; cases sOk <;> simp
            cases hrec : scanResult fOk sOk sh now ms with
            | error e => simp [scanResult, if_neg hf, hc, if_neg hs, hrec, Except.map] at h
            | ok p =>
              simp only [scanResult, if_neg hf, hc, if_neg hs, hrec, Except.map,
                Except.ok.injEq, Prod.mk.injEq] at h
              obtain ⟨hb, hds⟩ := h
              obtain ⟨ihb, ihds, _, _⟩ := ih p.1 p.2 (by rw [hrec])
              refine ⟨?_, ?_, Or.inr hfo, fun _ => hso⟩
              · rw [← hb]; simp [List.any_cons, hH]
              · rw [← hds, ihds]; simp [List.map_cons, hD]

theorem checkrecvResult_ok_inv (sess : ImapSession) (conn : Conn) (sh : String)
    (now : ℚ) (fd : Bool × List Bool)
    (h : checkrecvResult sess conn sh now = Except.ok fd) :
    sess.connectOk = true ∧ (conn.ssl = true → sess.starttlsOk = true) ∧
    sess.loginOk = true ∧ sess.selectOk = true ∧ sess.searchOk = true ∧
    sess.expungeOk = true ∧
    scanResult sess.fetchOk sess.storeOk sh now sess.msgs = Except.ok fd := by
  unfold checkrecvResult at h
  by_cases h1 : sess.connectOk = false
  · rw [if_pos h1] at h; exact absurd h (by simp)
  · rw [if_neg h1] at h
    by_cases h2 : (sess.starttlsOk = false ∧ conn.ssl = true)
    · rw [if_pos (by simp [h2.1, h2.2])] at h; exact absurd h (by simp)
    · rw [if_neg (by
        intro hb
        rcases Bool.and_eq_true _ _ |>.mp hb with ⟨hssl, hnst⟩
        exact h2 ⟨by revert hnst; cases sess.starttlsOk <;> simp, hssl⟩)] at h
      by_cases h3 : sess.loginOk = false
      · rw [if_pos h3] at h; exact absurd h (by simp)
      · rw [if_neg h3] at h
        by_cases h4 : sess.selectOk = false
        · rw [if_pos h4] at h; exact absurd h (by simp)
        · rw [if_neg h4] at h
          by_cases h5 : sess.searchOk = false
          · rw [if_pos h5] at h; exact absurd h (by simp)
          · rw [if_neg h5] at h
            cases hsc : scanResult sess.fetchOk sess.storeOk sh now sess.msgs with
            | error e => simp [hsc] at h
            | ok fd2 =>
              simp only [hsc] at h
              by_cases h6 : sess.expungeOk = false
              · rw [if_pos h6] at h; exact absurd h (by simp)
              · rw [if_neg h6] at h
                have hfd : fd2 = fd := Except.ok.inj h
                subst hfd
                refine ⟨?_, ?_, ?_, ?_, ?_, ?_, rfl⟩
                · revert h1; cases sess.connectOk <;> simp
                · intro hssl
                  by_contra hnst
                  exact h2 ⟨by revert hnst; cases sess.starttlsOk <;> simp, hssl⟩
                · revert h3; cases sess.loginOk <;> simp
                · revert h4; cases sess.selectOk <;> simp
                · revert h5; cases sess.searchOk <;> simp
                · revert h6; cases sess.expungeOk <;> simp

theorem sendResult_ok_inv (sess : SmtpSession) (hostname : String) (conn : Conn)
    (toAddr : String) (now : ℚ) (p : ProbeMsg)
    (h : sendResult sess hostname conn toAddr now = Except.ok p) :
    sess.connectOk = true ∧ (conn.ssl = true → sess.starttlsOk = true) ∧
    sess.loginOk = true ∧ sess.sendOk = true ∧
    p = buildProbe hostname conn toAddr now := by
  unfold sendResult at h
  by_cases h1 : sess.connectOk = false
  · rw [if_pos h1] at h; exact absurd h (by simp)
  · rw [if_neg h1] at h
    by_cases h2 : (sess.starttlsOk = false ∧ conn.ssl = true)
    · rw [if_pos (by simp [h2.1, h2.2])] at h; exact absurd h (by simp)
    · rw [if_neg (by
        intro hb
        rcases Bool.and_eq_true _ _ |>.mp hb with ⟨hssl, hnst⟩
        exact h2 ⟨by revert hnst; cases sess.starttlsOk <;> simp, hssl⟩)] at h
      by_cases h3 : sess.loginOk = false
      · rw [if_pos h3] at h; exact absurd h (by simp)
      · rw [if_neg h3] at h
        by_cases h4 : sess.sendOk = false
        · rw [if_pos h4] at h; exact absurd h (by simp)
        · rw [if_neg h4] at h
          refine ⟨?_, ?_, ?_, ?_, (Except.ok.inj h).symm⟩
          · revert h1; cases sess.connectOk <;> simp
          · intro hssl
            by_contra hnst
            exact h2 ⟨by revert hnst; cases sess.starttlsOk <;> simp, hssl⟩
          · revert h3; cases sess.loginOk <;> simp
          · revert h4; cases sess.sendOk <;> simp

theorem sendTrace_of_ok (sess : SmtpSession) (hostname : String) (conn : Conn)
    (toAddr : String) (now : ℚ) (p : ProbeMsg)
    (h : sendResult sess hostname conn toAddr now = Except.ok p) :
    sendTrace sess conn = smtpPre conn.ssl ++ [Op.smtpLogin, Op.smtpSendmail] := by
  obtain ⟨h1, h2, h3, h4, _⟩ := sendResult_ok_inv sess hostname conn toAddr now p h
  have hst : (conn.ssl && !sess.starttlsOk) = false := by
    cases hssl : conn.ssl with
    | false => simp
    | true => simp [h2 hssl]
  unfold sendTrace
  rw [if_neg (by simp [h1]), if_neg (by simp [hst]), if_neg (by simp [h3]),
    if_neg (by simp [h4])]

theorem probeResult_ok_inv (env : Env) (c1 c2 : Conn) (r : RunResult)
    (h : probeResult env c1 c2 = Except.ok r) :
    checkrecvResult env.imap1 c1 c2.smtp env.now = Except.ok r.recv1 ∧
    checkrecvResult env.imap2 c2 c1.imap env.now = Except.ok r.recv2 ∧
    sendResult env.smtp1 env.hostname c1 c2.addr env.now = Except.ok r.probe1 ∧
    sendResult env.smtp2 env.hostname c2 c1.addr env.now = Except.ok r.probe2 := by
  unfold probeResult at h
  cases h1 : checkrecvResult env.imap1 c1 c2.smtp env.now with
  | error e => simp [h1] at h
  | ok v1 =>
    simp only [h1] at h
    cases h2 : checkrecvResult env.imap2 c2 c1.imap env.now with
    | error e => simp [h2] at h
    | ok v2 =>
      simp only [h2] at h
      cases h3 : sendResult env.smtp1 env.hostname c1 c2.addr env.now with
      | error e => simp [h3] at h
      | ok p1 =>
        simp only [h3] at h
        cases h4 : sendResult env.smtp2 env.hostname c2 c1.addr env.now with
        | error e => simp [h4] at h
        | ok p2 =>
          simp only [h4] at h
          have hr : { recv1 := v1, recv2 := v2, probe1 := p1, probe2 := p2 } = r :=
            Except.ok.inj h
          subst hr
          exact ⟨rfl, rfl, rfl, rfl⟩

theorem probeTrace_of_ok (env : Env) (c1 c2 : Conn) (r : RunResult)
    (h : probeResult env c1 c2 = Except.ok r) :
    probeTrace env c1 c2 =
      tagOps 1 (checkrecvTrace env.imap1 c1 c2.smtp env.now)
        ++ tagOps 2 (checkrecvTrace env.imap2 c2 c1.imap env.now)
        ++ tagOps 3 (sendTrace env.smtp1 c1)
        ++ tagOps 4 (sendTrace env.smtp2 c2) := by
  obtain ⟨h1, h2, h3, h4⟩ := probeResult_ok_inv env c1 c2 r h
  simp only [probeTrace, h1, h2, h3, h4]

/-! Which side of the protocol each step's operations belong to. -/

theorem scanTrace_imap (fOk sOk : Bool) (sh : String) (now : ℚ) (l : List Msg) :
    ∀ op ∈ scanTrace fOk sOk sh now l, isImapOp op = true := by
  induction l with
  | nil => simp [scanTrace]
  | cons m ms ih =>
    intro op hop
    simp only [scanTrace] at hop
    split at hop
    · simp at hop
    · split at hop
      · simp at hop; subst hop; rfl
      · rcases List.mem_cons.mp hop with rfl | h
        · rfl
        · exact ih op h
      · split at hop
        · simp at hop; subst hop; rfl
        · rcases List.mem_cons.mp hop with rfl | h
          · rfl
          · rcases List.mem_cons.mp h with rfl | h2
            · rfl
            · exact ih op h2
      · split at hop
        · simp at hop; subst hop; rfl
        · rcases List.mem_cons.mp hop with rfl | h
          · rfl
          · rcases List.mem_cons.mp h with rfl | h2
            · rfl
            · exact ih op h2

theorem imapPre_imap (ssl : Bool) : ∀ op ∈ imapPre ssl, isImapOp op = true := by
  cases ssl with
  | false => intro op hop; simp [imapPre] at hop; subst hop; rfl
  | true => intro op hop; simp [imapPre] at hop; rcases hop with rfl | rfl <;> rfl

theorem checkrecvTrace_imap (sess : ImapSession) (conn : Conn) (sh : String) (now : ℚ) :
    ∀ op ∈ checkrecvTrace sess conn sh now, isImapOp op = true := by
  intro op hop
  simp only [checkrecvTrace] at hop
  split at hop
  · simp at hop
  · split at hop
    · simp at hop; subst hop; rfl
    · split at hop
      · exact imapPre_imap _ op hop
      · split at hop
        · rcases List.mem_append.mp hop with h | h
          · exact imapPre_imap _ op h
          · simp at h; subst h; rfl
        · split at hop
          · rcases List.mem_append.mp hop with h | h
            · exact imapPre_imap _ op h
            · simp at h; rcases h with rfl | rfl <;> rfl
          · split at hop
            · rcases List.mem_append.mp hop with h | h
              · rcases List.mem_append.mp h with h2 | h2
                · exact imapPre_imap _ op h2
                · simp at h2; rcases h2 with rfl | rfl | rfl <;> rfl
              · exact scanTrace_imap _ _ _ _ _ op h
            · split at hop
              · rcases List.mem_append.mp hop with h | h
                · rcases List.mem_append.mp h with h2 | h2
                  · exact imapPre_imap _ op h2
                  · simp at h2; rcases h2 with rfl | rfl | rfl <;> rfl
                · exact scanTrace_imap _ _ _ _ _ op h
              · rcases List.mem_append.mp hop with h | h
                · rcases List.mem_append.mp h with h2 | h2
                  · rcases List.mem_append.mp h2 with h3 | h3
                    · exact imapPre_imap _ op h3
                    · simp at h3; rcases h3 with rfl | rfl | rfl <;> rfl
                  · exact scanTrace_imap _ _ _ _ _ op h2
                · simp at h; rcases h with rfl | rfl <;> rfl

theorem smtpPre_not_imap (ssl : Bool) : ∀ op ∈ smtpPre ssl, isImapOp op = false := by
  cases ssl with
  | false => intro op hop; simp [smtpPre] at hop; subst hop; rfl
  | true => intro op hop; simp [smtpPre] at hop; rcases hop with rfl | rfl | rfl <;> rfl

theorem sendTrace_not_imap (sess : SmtpSession) (conn : Conn) :
    ∀ op ∈ sendTrace sess conn, isImapOp op = false := by
  intro op hop
  simp only [sendTrace] at hop
  split at hop
  · simp at hop
  · split at hop
    · simp at hop; subst hop; rfl
    · split at hop
      · exact smtpPre_not_imap _ op hop
      · split at hop
        · rcases List.mem_append.mp hop with h | h
          · exact smtpPre_not_imap _ op h
          · simp at h; subst h; rfl
        · rcases List.mem_append.mp hop with h | h
          · exact smtpPre_not_imap _ op h
          · simp at h; rcases h with rfl | rfl <;> rfl

/-- In a list `l1 ++ l2` where no send event occurs in `l1` and no
expunge event occurs in `l2`, every expunge event's index is strictly
below every send event's index. -/
theorem expunge_lt_sendmail {l1 l2 : List (ℕ × Op)}
    (h1 : ∀ x ∈ l1, x.2 ≠ Op.smtpSendmail) (h2 : ∀ x ∈ l2, x.2 ≠ Op.imapExpunge)
    {i j a b : ℕ}
    (hi : (l1 ++ l2)[i]? = some (a, Op.imapExpunge))
    (hj : (l1 ++ l2)[j]? = some (b, Op.smtpSendmail)) : i < j := by
  have hi' : i < l1.length := by
    by_contra hge
    push_neg at hge
    rw [List.getElem?_append_right hge] at hi
    exact h2 _ (mem_of_getElem_opt hi) rfl
  have hj' : l1.length ≤ j := by
    by_contra hlt
    push_neg at hlt
    rw [List.getElem?_append_left hlt] at hj
    exact h1 _ (mem_of_getElem_opt hj) rfl
  omega

theorem tagOps_no_sendmail (n : ℕ) (t : List Op) (ht : ∀ op ∈ t, isImapOp op = true) :
    ∀ x ∈ tagOps n t, x.2 ≠ Op.smtpSendmail := by
  intro x hx
  obtain ⟨op, hop, rfl⟩ := List.mem_map.mp hx
  intro hEq
  have hEq2 : op = Op.smtpSendmail := hEq
  have h := ht op hop
  rw [hEq2] at h
  exact absurd h (by simp [isImapOp])

theorem tagOps_no_expunge (n : ℕ) (t : List Op) (ht : ∀ op ∈ t, isImapOp op = false) :
    ∀ x ∈ tagOps n t, x.2 ≠ Op.imapExpunge := by
  intro x hx
  obtain ⟨op, hop, rfl⟩ := List.mem_map.mp hx
  intro hEq
  have hEq2 : op = Op.imapExpunge := hEq
  have h := ht op hop
  rw [hEq2] at h
  exact absurd h (by simp [isImapOp])

/-- Claim C7: in every run of `probe`, every expunge (the commit of a
reconciliation's deletions) occurs strictly before every probe
transmission in the run's operation trace — both directions are
reconciled, deletions committed, before either direction's new probe is
dispatched; so no probe is ever checked in the run that sent it. -/
theorem c7_reconcile_before_dispatch (env : Env) (c1 c2 : Conn) (i j a b : ℕ)
    (hi : (probeTrace env c1 c2)[i]? = some (a, Op.imapExpunge))
    (hj : (probeTrace env c1 c2)[j]? = some (b, Op.smtpSendmail)) : i < j := by
  have hns1 := tagOps_no_sendmail 1 _ (checkrecvTrace_imap env.imap1 c1 c2.smtp env.now)
  have hns2 := tagOps_no_sendmail 2 _ (checkrecvTrace_imap env.imap2 c2 c1.imap env.now)
  have hne3 := tagOps_no_expunge 3 _ (sendTrace_not_imap env.smtp1 c1)
  have hne4 := tagOps_no_expunge 4 _ (sendTrace_not_imap env.smtp2 c2)
  cases h1 : checkrecvResult env.imap1 c1 c2.smtp env.now with
  | error e =>
    simp only [probeTrace, h1] at hi hj
    rw [← List.append_nil (tagOps 1 (checkrecvTrace env.imap1 c1 c2.smtp env.now))] at hi hj
    exact expunge_lt_sendmail hns1 (by simp) hi hj
  | ok v1 =>
    simp only [probeTrace, h1] at hi hj
    cases h2 : checkrecvResult env.imap2 c2 c1.imap env.now with
    | error e =>
      simp only [h2] at hi hj
      rw [← List.append_nil (tagOps 1 (checkrecvTrace env.imap1 c1 c2.smtp env.now)
        ++ tagOps 2 (checkrecvTrace env.imap2 c2 c1.imap env.now))] at hi hj
      refine expunge_lt_sendmail ?_ (by simp) hi hj
      intro x hx
      rcases List.mem_append.mp hx with h | h
      · exact hns1 x h
      · exact hns2 x h
    | ok v2 =>
      simp only [h2] at hi hj
      cases h3 : sendResult env.smtp1 env.hostname c1 c2.addr env.now with
      | error e =>
        simp only [h3] at hi hj
        refine expunge_lt_sendmail ?_ hne3 hi hj
        intro x hx
        rcases List.mem_append.mp hx with h | h
        · exact hns1 x h
        · exact hns2 x h
      | ok p1 =>
        simp only [h3] at hi hj
        rw [List.append_assoc (tagOps 1 (checkrecvTrace env.imap1 c1 c2.smtp env.now)
          ++ tagOps 2 (checkrecvTrace env.imap2 c2 c1.imap env.now))] at hi hj
        refine expunge_lt_sendmail ?_ ?_ hi hj
        · intro x hx
          rcases List.mem_append.mp hx with h | h
          · exact hns1 x h
          · exact hns2 x h
        · intro x hx
          rcases List.mem_append.mp hx with h | h
          · exact hne3 x h
          · exact hne4 x h

/-- Claim C7, witness instance: in the trouble-free empty-mailbox run the
first expunge sits at index 4 and the first transmission at index 14. -/
theorem c7_reconcile_before_dispatch_witness :
    (probeTrace envW cA cB)[4]? = some (1, Op.imapExpunge) ∧
    (probeTrace envW cA cB)[14]? = some (3, Op.smtpSendmail) ∧
    (4 : ℕ) < 14 :=
  ⟨by with_unfolding_all rfl, by with_unfolding_all rfl,
    c7_reconcile_before_dispatch envW cA cB 4 14 1 3 (by with_unfolding_all rfl)
      (by with_unfolding_all rfl)⟩

/-! Counting transmissions in the run trace. -/

theorem countP_send_snd_zero (n : ℕ) (t : List Op) (ht : ∀ op ∈ t, isImapOp op = true) :
    (tagOps n t).countP (fun e => decide (e.2 = Op.smtpSendmail)) = 0 := by
  refine List.countP_eq_zero.mpr ?_
  intro x hx
  simpa using tagOps_no_sendmail n t ht x hx

theorem countP_tag_zero (n k : ℕ) (hnk : n ≠ k) (t : List Op) :
    (tagOps n t).countP (fun e => decide (e = (k, Op.smtpSendmail))) = 0 := by
  refine List.countP_eq_zero.mpr ?_
  intro x hx
  obtain ⟨op, hop, rfl⟩ := List.mem_map.mp (by simpa [tagOps] using hx)
  simp [Prod.mk.injEq, hnk]

theorem countP_sendTrace_snd (n : ℕ) (ssl : Bool) :
    (tagOps n (smtpPre ssl ++ [Op.smtpLogin, Op.smtpSendmail])).countP
      (fun e => decide (e.2 = Op.smtpSendmail)) = 1 := by
  cases ssl <;> simp [tagOps, smtpPre]

theorem countP_sendTrace_tag (n : ℕ) (ssl : Bool) :
    (tagOps n (smtpPre ssl ++ [Op.smtpLogin, Op.smtpSendmail])).countP
      (fun e => decide (e = (n, Op.smtpSendmail))) = 1 := by
  cases ssl <;> simp [tagOps, smtpPre]

/-- Claim C8: every run that completes without a session failure performs
exactly two probe transmissions — exactly one in the `conn1`-to-`conn2`
dispatch step and exactly one in the `conn2`-to-`conn1` dispatch step —
whatever the two reconciliations found in the mailboxes. -/
theorem c8_exactly_two_sends (env : Env) (c1 c2 : Conn) (r : RunResult)
    (h : probeResult env c1 c2 = Except.ok r) :
    (probeTrace env c1 c2).countP (fun e => decide (e.2 = Op.smtpSendmail)) = 2 ∧
    (probeTrace env c1 c2).countP (fun e => decide (e = (3, Op.smtpSendmail))) = 1 ∧
    (probeTrace env c1 c2).countP (fun e => decide (e = (4, Op.smtpSendmail))) = 1 := by
  obtain ⟨h1, h2, h3, h4⟩ := probeResult_ok_inv env c1 c2 r h
  have ht3 := sendTrace_of_ok _ _ _ _ _ _ h3
  have ht4 := sendTrace_of_ok _ _ _ _ _ _ h4
  have htr := probeTrace_of_ok env c1 c2 r h
  rw [ht3, ht4] at htr
  rw [htr]
  refine ⟨?_, ?_, ?_⟩
  · rw [List.countP_append, List.countP_append, List.countP_append,
      countP_send_snd_zero 1 _ (checkrecvTrace_imap env.imap1 c1 c2.smtp env.now),
      countP_send_snd_zero 2 _ (checkrecvTrace_imap env.imap2 c2 c1.imap env.now),
      countP_sendTrace_snd 3 c1.ssl, countP_sendTrace_snd 4 c2.ssl]
  · rw [List.countP_append, List.countP_append, List.countP_append,
      countP_tag_zero 1 3 (by decide) _, countP_tag_zero 2 3 (by decide) _,
      countP_sendTrace_tag 3 c1.ssl, countP_tag_zero 4 3 (by decide) _]
  · rw [List.countP_append, List.countP_append, List.countP_append,
      countP_tag_zero 1 4 (by decide) _, countP_tag_zero 2 4 (by decide) _,
      countP_tag_zero 3 4 (by decide) _, countP_sendTrace_tag 4 c2.ssl]

/-- Claim C8, witness instance: the trouble-free empty-mailbox run. -/
theorem c8_exactly_two_sends_witness :
    (probeTrace envW cA cB).countP (fun e => decide (e.2 = Op.smtpSendmail)) = 2 ∧
    (probeTrace envW cA cB).countP (fun e => decide (e = (3, Op.smtpSendmail))) = 1 ∧
    (probeTrace envW cA cB).countP (fun e => decide (e = (4, Op.smtpSendmail))) = 1 :=
  c8_exactly_two_sends envW cA cB rW (by with_unfolding_all rfl)

/-- Claim C9: a run outcome of `Except.ok` certifies that every session
operation the run needed succeeded (contrapositive: a connect,
STARTTLS, login, select/listing, search, fetch, store/delete, expunge or
sendmail failure in either direction surfaces as `Except.error`, never as
a boolean), and the returned reconciliation booleans coincide with the
pure scan of each mailbox — so a `false` can only mean that no fresh
matching message was found, never that communication failed. -/
theorem c9_errors_propagate (env : Env) (c1 c2 : Conn) (r : RunResult)
    (h : probeResult env c1 c2 = Except.ok r) :
    r.recv1.1 = env.imap1.msgs.any (isHit c2.smtp env.now) ∧
    r.recv2.1 = env.imap2.msgs.any (isHit c1.imap env.now) ∧
    imapSessionComplete env.imap1 c1.ssl c2.smtp env.now ∧
    imapSessionComplete env.imap2 c2.ssl c1.imap env.now ∧
    smtpSessionComplete env.smtp1 c1.ssl ∧
    smtpSessionComplete env.smtp2 c2.ssl := by
  obtain ⟨h1, h2, h3, h4⟩ := probeResult_ok_inv env c1 c2 r h
  obtain ⟨hc1, hst1, hl1, hsel1, hsea1, hexp1, hsc1⟩ :=
    checkrecvResult_ok_inv env.imap1 c1 c2.smtp env.now r.recv1 h1
  obtain ⟨hc2, hst2, hl2, hsel2, hsea2, hexp2, hsc2⟩ :=
    checkrecvResult_ok_inv env.imap2 c2 c1.imap env.now r.recv2 h2
  obtain ⟨hb1, _, hf1, hsto1⟩ :=
    scanResult_ok_inv env.imap1.fetchOk env.imap1.storeOk c2.smtp env.now
      env.imap1.msgs r.recv1.1 r.recv1.2 (by rw [hsc1])
  obtain ⟨hb2, _, hf2, hsto2⟩ :=
    scanResult_ok_inv env.imap2.fetchOk env.imap2.storeOk c1.imap env.now
      env.imap2.msgs r.recv2.1 r.recv2.2 (by rw [hsc2])
  obtain ⟨sc3a, sc3b, sc3c, sc3d, _⟩ := sendResult_ok_inv _ _ _ _ _ _ h3
  obtain ⟨sc4a, sc4b, sc4c, sc4d, _⟩ := sendResult_ok_inv _ _ _ _ _ _ h4
  exact ⟨hb1, hb2, ⟨hc1, hst1, hl1, hsel1, hsea1, hexp1, hf1, hsto1⟩,
    ⟨hc2, hst2, hl2, hsel2, hsea2, hexp2, hf2, hsto2⟩,
    ⟨sc3a, sc3b, sc3c, sc3d⟩, ⟨sc4a, sc4b, sc4c, sc4d⟩⟩

/-- Claim C9, witness instance: the booleans of the trouble-free
empty-mailbox run coincide with the pure scans. -/
theorem c9_errors_propagate_witness :
    rW.recv1.1 = envW.imap1.msgs.any (isHit cB.smtp envW.now) ∧
    rW.recv2.1 = envW.imap2.msgs.any (isHit cA.imap envW.now) :=
  ⟨(c9_errors_propagate envW cA cB rW (by with_unfolding_all rfl)).1,
    (c9_errors_propagate envW cA cB rW (by with_unfolding_all rfl)).2.1⟩

/-! Host/port parsing. -/

theorem pysplit_no_sep (sep : Char) (l : List Char) (h : ∀ c ∈ l, c ≠ sep) :
    pysplit sep l = [l] := by
  induction l with
  | nil => rfl
  | cons c cs ih =>
    have hc : c ≠ sep := h c (List.mem_cons_self c cs)
    have ih2 := ih (fun x hx => h x (List.mem_cons_of_mem c hx))
    simp [pysplit, hc, ih2]

theorem pysplit_append (sep : Char) (a b : List Char) (ha : ∀ c ∈ a, c ≠ sep) :
    pysplit sep (a ++ sep :: b) = a :: pysplit sep b := by
  induction a with
  | nil => simp [pysplit]
  | cons c cs ih =>
    have hc : c ≠ sep := ha c (List.mem_cons_self c cs)
    have ih2 := ih (fun x hx => ha x (List.mem_cons_of_mem c hx))
    simp [pysplit, hc, ih2]

theorem pysplit_head_takeWhile (sep : Char) (b : List Char) :
    ∃ rest, pysplit sep b = (b.takeWhile (fun c => c != sep)) :: rest := by
  induction b with
  | nil => exact ⟨[], rfl⟩
  | cons c cs ih =>
    by_cases hc : c = sep
    · subst hc
      exact ⟨pysplit c cs, by simp [pysplit]⟩
    · obtain ⟨rest, hr⟩ := ih
      refine ⟨rest, ?_⟩
      simp [pysplit, hc, hr, List.takeWhile_cons]

/-- Claim C10, counterexample: on the host string `"h:1:2"`, the code's
port — `split(":")[1]`, the text between the first and second colon — is
`"1"`, while the text after the first colon is `"1:2"`; the two
disagree. -/
theorem c10_counterexample :
    portPart twoColons 587 ≠ portAfterFirstColon twoColons 587 ∧
    portPart twoColons 587 = PortSpec.fromString (String.mk ['1']) ∧
    portAfterFirstColon twoColons 587 =
      PortSpec.fromString (String.mk ['1', ':', '2']) := by
  refine ⟨by decide, by decide, by decide⟩

/-- Claim C10 (amended): a transport host string with no colon connects
to SMTP port 587 and a retrieval host string with no colon connects to
IMAP port 143; when a colon is present, the second colon-separated field
— the text between the first colon and the following colon, if any — is
used as the port. -/
theorem c10_default_ports (conn : Conn) (a b : List Char) :
    ((∀ c ∈ conn.smtp.data, c ≠ ':') → smtpPort conn = PortSpec.dflt 587) ∧
    ((∀ c ∈ conn.imap.data, c ≠ ':') → imapPort conn = PortSpec.dflt 143) ∧
    (conn.smtp.data = a ++ ':' :: b → (∀ c ∈ a, c ≠ ':') →
      smtpPort conn = PortSpec.fromString (String.mk (b.takeWhile (fun c => c != ':')))) ∧
    (conn.imap.data = a ++ ':' :: b → (∀ c ∈ a, c ≠ ':') →
      imapPort conn = PortSpec.fromString (String.mk (b.takeWhile (fun c => c != ':')))) := by
  refine ⟨?_, ?_, ?_, ?_⟩
  · intro h
    unfold smtpPort portPart
    rw [pysplit_no_sep ':' conn.smtp.data h]
  · intro h
    unfold imapPort portPart
    rw [pysplit_no_sep ':' conn.imap.data h]
  · intro hdata ha
    unfold smtpPort portPart
    rw [hdata, pysplit_append ':' a b ha]
    obtain ⟨rest, hr⟩ := pysplit_head_takeWhile ':' b
    rw [hr]
  · intro hdata ha
    unfold imapPort portPart
    rw [hdata, pysplit_append ':' a b ha]
    obtain ⟨rest, hr⟩ := pysplit_head_takeWhile ':' b
    rw [hr]

/-- Claim C10, witness instance: `cPort` carries an explicit SMTP port
and a portless IMAP host. -/
theorem c10_default_ports_witness :
    smtpPort cPort = PortSpec.fromString (String.mk (cPortRest.takeWhile (fun c => c != ':'))) ∧
    imapPort cPort = PortSpec.dflt 143 :=
  ⟨(c10_default_ports cPort cPortHost cPortRest).2.2.1 (by decide) (by decide),
    (c10_default_ports cPort cPortHost cPortRest).2.1 (by decide)⟩

/-- Claim C1 (code bug, line 84): the probe dispatched from endpoint A
embeds `cA.smtp` in its sender-host header (`fromhost=conn[0]`, line
39), but `probe` reconciles endpoint B's mailbox with expected sender
`conn1[1] = cA.imap`.  With each mailbox holding exactly the fresh probe
the opposite endpoint sent, direction 1 (line 83, which uses `conn2[0]`)
confirms delivery and deletes the artifact, while direction 2 fails to
match the very probe artifact endpoint A deposited, reporting `false`
and leaving it in the mailbox. -/
theorem c1_expected_sender_mismatch :
    (buildProbe hostW cA cB.addr 200).senderHost = cA.smtp ∧
    msgFromA.senderHost = some cA.smtp ∧
    envBug.imap2.msgs = [msgFromA] ∧
    (probeResult envBug cA cB).map (fun r => (r.recv1, r.recv2)) =
      Except.ok ((true, [true]), (false, [false])) ∧
    cA.imap ≠ cA.smtp :=
  ⟨rfl, rfl, rfl, by with_unfolding_all rfl, by decide⟩

end Twowaymail
